import Mathlib

/-!
Verification of the to-do list manager (`src/app.py`).

The program is a single-file Python application: a `Task` record (name,
priority, completed flag, creation-timestamp string) and a `TaskManager`
owning a list of tasks with load/save/add/display/filter/sort/delete/toggle
operations.  This file gives a shallow embedding of those operations as pure
Lean functions and proves the specified properties about them.

Modelling conventions:
- Python strings are `String`, booleans are `Bool`, the task list is
  `List Task`.
- Python string comparison (`<`, `<=`) is lexicographic on code points; it is
  embedded as the executable `charListLe` / `strLe` below.
- `datetime.now().strftime(...)` is modelled by a `now : String` parameter.
- Printed messages are returned as `String` values (the surrounding quote
  characters of the Python f-strings are elided).
- The persisted JSON file is modelled at the parsed level by `FileContents`:
  absent, empty, unparseable (any exception while parsing or rebuilding the
  records), or a well-formed list of records.  `json.dump`/`json.load` of a
  list of flat string/bool records is assumed to be an exact inverse pair,
  which is the documented behaviour of the Python json module on such data.
- `list.sort(key=..., reverse=...)` is a stable ascending Timsort in CPython;
  `reverse=True` reverses the list before and after sorting.  Any stable
  ascending sort computes the same result, so it is embedded as a stable
  insertion sort, with the same reverse-before-and-after treatment.
-/

namespace ToDoList

/-- Lexicographic comparison of two code-point lists, as Python compares
strings: at the first differing character the smaller character decides;
a proper prefix is smaller. -/
def charListLe : List Char → List Char → Bool
  | [], _ => true
  | _ :: _, [] => false
  | a :: as, b :: bs => if a < b then true else if b < a then false else charListLe as bs

/-- Python `s <= t` on strings. -/
def strLe (s t : String) : Bool := charListLe s.data t.data

/-- One to-do item, mirroring the four instance attributes set by
`Task.__init__` in `src/app.py`. -/
structure Task where
  name : String
  priority : String
  completed : Bool
  created_date : String
deriving DecidableEq, Repr

instance : Inhabited Task := ⟨⟨"", "Medium", false, ""⟩⟩

/-- Models `Task.__init__(name, priority, completed, created_date)` with the current
time passed in as `now`: the stored `created_date` is the supplied value when
it is truthy (a non-empty string), and `now` when it is `None` or the empty
string (`created_date if created_date else datetime.now().strftime(...)`). -/
def Task.init (name priority : String) (completed : Bool)
    (created_date : Option String) (now : String) : Task :=
  { name := name, priority := priority, completed := completed,
    created_date :=
      match created_date with
      | none => now
      | some s => if s = "" then now else s }

/-- Python `f"{s:<6}"`: left-justify `s` in a field of width `w`, padding with
spaces; a longer string is unchanged. -/
def padTo (s : String) (w : Nat) : String :=
  s ++ String.mk (List.replicate (w - s.length) ' ')

/-- Models `Task.__str__`: status marker, fixed-width priority label, name, and the
creation date truncated to its first 10 characters. -/
def Task.render (t : Task) : String :=
  (if t.completed then "[DONE]" else "[ ]") ++ " " ++
    ("(P: " ++ padTo t.priority 6 ++ ")") ++ " " ++
    t.name ++ " (Created: " ++ t.created_date.take 10 ++ ")"

/-- Models `Task.toggle_complete`: flip the completed flag. -/
def Task.toggle_complete (t : Task) : Task :=
  { t with completed := !t.completed }

/-- The portable key-value form of a task produced by `Task.to_dict`
(the JSON object with keys name/priority/completed/created_date). -/
structure TaskDict where
  name : String
  priority : String
  completed : Bool
  created_date : String
deriving DecidableEq, Repr

/-- Models `Task.to_dict`. -/
def Task.to_dict (t : Task) : TaskDict :=
  ⟨t.name, t.priority, t.completed, t.created_date⟩

/-- Models `Task(**task_dict)` as performed by `load_tasks`: the record fields are
passed to the constructor, so an empty `created_date` is replaced by `now`. -/
def taskOfDict (d : TaskDict) (now : String) : Task :=
  Task.init d.name d.priority d.completed (some d.created_date) now

/-- The state of the persisted file as seen by `load_tasks`, at the parsed
level: absent or zero-size (the guard returns early), contents that raise
while being parsed or rebuilt into `Task`s (`json.JSONDecodeError` or any
other exception), or a well-formed list of records. -/
inductive FileContents where
  | absent : FileContents
  | emptyFile : FileContents
  | parseFailure : FileContents
  | records : List TaskDict → FileContents
deriving DecidableEq

/-- Models `TaskManager.load_tasks`, acting on the current task list `prior` (the
method only assigns `self.tasks` after a successful parse, so on failure the
prior list is kept; called from `__init__` the prior list is `[]`).  Returns
the new task list and the message printed. -/
def load_tasks (prior : List Task) (file : FileContents) (now : String) :
    List Task × String :=
  match file with
  | .absent => (prior, "")
  | .emptyFile => (prior, "")
  | .parseFailure =>
      (prior, "Error loading tasks. Starting with empty list.")
  | .records ds =>
      (ds.map (fun d => taskOfDict d now),
       "Loaded " ++ toString ds.length ++ " tasks.")

/-- Models `TaskManager.__init__`: start from an empty list and run `load_tasks`. -/
def TaskManager.init (file : FileContents) (now : String) : List Task × String :=
  load_tasks [] file now

/-- Models `TaskManager.save_tasks`: the list of records written to the file
(`[task.to_dict() for task in self.tasks]`).  The I/O itself is outside the
model. -/
def save_tasks (tasks : List Task) : List TaskDict :=
  tasks.map Task.to_dict

/-- Models `TaskManager.add_task`: construct `Task(name, priority)` (completed
defaults to false, created_date to the current time) and append it. -/
def add_task (tasks : List Task) (name priority : String) (now : String) :
    List Task × String :=
  (tasks ++ [Task.init name priority false none now],
   "Task " ++ name ++ " added with priority " ++ priority ++ ".")

/-- The numbered lines printed by the loop in `TaskManager.display_tasks`
(`f"{index + 1}. {task}"`); the surrounding header/footer banners, the
empty-list message and the return value are not needed by the claims. -/
def display_tasks (task_list : List Task) : List String :=
  task_list.enum.map (fun p => toString (p.1 + 1) ++ ". " ++ p.2.render)

/-- Python `str.lower` restricted to ASCII letters (every string the claims
exercise is ASCII). -/
def asciiLowerChar (c : Char) : Char :=
  if 'A' ≤ c ∧ c ≤ 'Z' then Char.ofNat (c.toNat + 32) else c

/-- Python `str.lower` on an ASCII string. -/
def asciiLower (s : String) : String := String.mk (s.data.map asciiLowerChar)

/-- Models `TaskManager.filter_tasks`: returns the selected sublist, plus a flag
that is true exactly when the invalid-criterion message is printed (in which
case the result is empty). -/
def filter_tasks (tasks : List Task) (criterion : String) : List Task × Bool :=
  let c := asciiLower criterion
  if c = "all" then (tasks, false)
  else if c = "low" ∨ c = "medium" ∨ c = "high" then
    (tasks.filter (fun t => asciiLower t.priority = c), false)
  else if c = "pending" then (tasks.filter (fun t => !t.completed), false)
  else if c = "done" then (tasks.filter (fun t => t.completed), false)
  else ([], true)

/-- The comparison `attrgetter(key)(a) <= attrgetter(key)(b)` for the four
data attributes (Python compares the two strings, or the two booleans with
`False < True`).  Only called with `key` among `taskDataAttrs`, or with
`"created_date"` for the fallback sort. -/
def keyLe (key : String) (a b : Task) : Bool :=
  if key = "name" then strLe a.name b.name
  else if key = "priority" then strLe a.priority b.priority
  else if key = "completed" then !a.completed || b.completed
  else strLe a.created_date b.created_date

/-- Insert `a` before the first element `b` with `le a b`; the stable
insertion step of an ascending sort. -/
def orderedInsert (le : Task → Task → Bool) (a : Task) : List Task → List Task
  | [] => [a]
  | b :: l => if le a b then a :: b :: l else b :: orderedInsert le a l

/-- Stable ascending insertion sort; computes the same list as the stable
ascending Timsort of CPython for any total preorder `le`. -/
def insertionSort (le : Task → Task → Bool) : List Task → List Task
  | [] => []
  | a :: l => orderedInsert le a (insertionSort le l)

/-- Python `list.sort(key=..., reverse=...)`: stable ascending sort by key;
`reverse=True` is implemented by CPython as reverse, sort, reverse (stable
descending). -/
def pySort (le : Task → Task → Bool) (reverse : Bool) (l : List Task) :
    List Task :=
  if reverse then (insertionSort le l.reverse).reverse else insertionSort le l

/-- The data attributes present on every `Task` instance. -/
def taskDataAttrs : List String := ["name", "priority", "completed", "created_date"]

/-- The method attributes of `Task`: `attrgetter` finds these too, but the
resulting bound methods are unorderable, so comparing two of them raises
`TypeError` (which `sort_tasks` does not catch). -/
def taskMethodAttrs : List String :=
  ["mark_complete", "toggle_complete", "to_dict", "__init__", "__str__"]

/-- Models `TaskManager.sort_tasks`.  `list.sort` computes `attrgetter(key)` of every
element before comparing, so with an empty list no `AttributeError` can be
raised even for a nonexistent key, and with at most one element no comparison
happens even for a method-valued key.  `AttributeError` (nonexistent key,
non-empty list) is caught and falls back to an ascending `created_date` sort;
`TypeError` from comparing bound methods propagates (`Except.error`).
Returns the sorted list and the message printed.  The key is treated as a
plain attribute name; the dotted-path feature of `operator.attrgetter`
(keys containing a dot) is outside the model, as no caller uses it. -/
def sort_tasks (tasks : List Task) (key : String) (reverse : Bool) :
    Except Unit (List Task × String) :=
  let okMsg := "Tasks sorted by " ++ key ++ " (Reverse: " ++
    (if reverse then "True" else "False") ++ ")."
  if key ∈ taskDataAttrs then
    .ok (pySort (keyLe key) reverse tasks, okMsg)
  else if key ∈ taskMethodAttrs then
    if tasks.length ≤ 1 then .ok (tasks, okMsg)
    else .error ()
  else
    if tasks.isEmpty then .ok (tasks, okMsg)
    else .ok (insertionSort (keyLe "created_date") tasks,
      "Invalid sorting key: " ++ key ++ ". Defaulting to creation date.")

/-- Models `TaskManager.delete_task` with a Python integer index: in range, `pop` the
element and report its name; out of range, report and leave the list alone. -/
def delete_task (tasks : List Task) (index : Int) : List Task × String :=
  if 0 ≤ index ∧ index < (tasks.length : Int) then
    (tasks.eraseIdx index.toNat,
     "Task " ++ (tasks.getD index.toNat default).name ++ " deleted.")
  else
    (tasks, "Error: Task number is out of range.")

/-- Models `TaskManager.toggle_task`: in range, flip the completed flag of the task in
place and report the new status (read back from the updated task); out of
range, report and leave the list alone. -/
def toggle_task (tasks : List Task) (index : Int) : List Task × String :=
  if 0 ≤ index ∧ index < (tasks.length : Int) then
    let t := (tasks.getD index.toNat default).toggle_complete
    (tasks.set index.toNat t,
     "Task " ++ t.name ++ " status set to " ++
       (if t.completed then "DONE" else "PENDING") ++ ".")
  else
    (tasks, "Error: Task number is out of range.")

/-! ### Helper lemmas -/

theorem charListLe_total : ∀ as bs : List Char, charListLe as bs = true ∨ charListLe bs as = true
  | [], _ => Or.inl rfl
  | _ :: _, [] => Or.inr rfl
  | a :: as, b :: bs => by
    simp only [charListLe]
    rcases lt_trichotomy a b with h | h | h
    · left; simp [h]
    · subst h
      simp only [lt_irrefl, if_false]
      exact charListLe_total as bs
    · right; simp [h]

theorem charListLe_trans : ∀ as bs cs : List Char,
    charListLe as bs = true → charListLe bs cs = true → charListLe as cs = true
  | [], _, _, _, _ => rfl
  | _ :: _, [], _, h, _ => by simp [charListLe] at h
  | _ :: _, _ :: _, [], _, h => by simp [charListLe] at h
  | a :: as, b :: bs, c :: cs, h1, h2 => by
    simp only [charListLe] at h1 h2 ⊢
    rcases lt_trichotomy a b with hab | hab | hab
    · rcases lt_trichotomy b c with hbc | hbc | hbc
      · simp [lt_trans hab hbc]
      · subst hbc; simp [hab]
      · simp [hbc, asymm hbc] at h2
    · subst hab
      rcases lt_trichotomy a c with hac | hac | hac
      · simp [hac]
      · subst hac
        simp only [lt_irrefl, if_false] at h1 h2 ⊢
        exact charListLe_trans as bs cs h1 h2
      · simp [hac, asymm hac] at h2
    · simp [hab, asymm hab] at h1

theorem strLe_total (s t : String) : strLe s t = true ∨ strLe t s = true :=
  charListLe_total s.data t.data

theorem strLe_trans {s t u : String} (h1 : strLe s t = true) (h2 : strLe t u = true) :
    strLe s u = true :=
  charListLe_trans s.data t.data u.data h1 h2

theorem orderedInsert_perm (le : Task → Task → Bool) (a : Task) :
    ∀ l : List Task, List.Perm (orderedInsert le a l) (a :: l)
  | [] => List.Perm.refl _
  | b :: l => by
    simp only [orderedInsert]
    by_cases h : le a b = true
    · simp [h]
    · simp only [h, if_false]
      exact ((orderedInsert_perm le a l).cons b).trans (List.Perm.swap a b l)

theorem insertionSort_perm (le : Task → Task → Bool) :
    ∀ l : List Task, List.Perm (insertionSort le l) l
  | [] => List.Perm.refl _
  | a :: l =>
    (orderedInsert_perm le a (insertionSort le l)).trans
      ((insertionSort_perm le l).cons a)

theorem pySort_perm (le : Task → Task → Bool) (reverse : Bool) (l : List Task) :
    List.Perm (pySort le reverse l) l := by
  unfold pySort
  by_cases h : reverse = true
  · simp only [h, if_true]
    exact (List.reverse_perm _).trans
      ((insertionSort_perm le l.reverse).trans (List.reverse_perm l))
  · simp only [h, if_false]
    exact insertionSort_perm le l

theorem mem_orderedInsert (le : Task → Task → Bool) (a x : Task) (l : List Task) :
    x ∈ orderedInsert le a l ↔ x = a ∨ x ∈ l := by
  constructor
  · intro hx
    have := (orderedInsert_perm le a l).mem_iff.mp hx
    simpa using this
  · intro hx
    apply (orderedInsert_perm le a l).mem_iff.mpr
    simpa using hx

theorem orderedInsert_pairwise (le : Task → Task → Bool)
    (htot : ∀ a b, le a b = true ∨ le b a = true)
    (htrans : ∀ a b c, le a b = true → le b c = true → le a c = true)
    (a : Task) : ∀ l : List Task,
    l.Pairwise (fun x y => le x y = true) →
    (orderedInsert le a l).Pairwise (fun x y => le x y = true)
  | [], _ => by simp [orderedInsert]
  | b :: l, hl => by
    rw [List.pairwise_cons] at hl
    obtain ⟨hb, hl'⟩ := hl
    simp only [orderedInsert]
    by_cases h : le a b = true
    · simp only [h, if_true]
      rw [List.pairwise_cons]
      refine ⟨?_, List.pairwise_cons.mpr ⟨hb, hl'⟩⟩
      intro x hx
      rcases List.mem_cons.mp hx with rfl | hx
      · exact h
      · exact htrans a b x h (hb x hx)
    · rw [if_neg h, List.pairwise_cons]
      refine ⟨?_, orderedInsert_pairwise le htot htrans a l hl'⟩
      intro x hx
      rcases (mem_orderedInsert le a x l).mp hx with rfl | hx
      · rcases htot x b with h' | h'
        · exact absurd h' h
        · exact h'
      · exact hb x hx

theorem insertionSort_pairwise (le : Task → Task → Bool)
    (htot : ∀ a b, le a b = true ∨ le b a = true)
    (htrans : ∀ a b c, le a b = true → le b c = true → le a c = true) :
    ∀ l : List Task, (insertionSort le l).Pairwise (fun x y => le x y = true)
  | [] => List.Pairwise.nil
  | a :: l =>
    orderedInsert_pairwise le htot htrans a (insertionSort le l)
      (insertionSort_pairwise le htot htrans l)

theorem getD_set_self {α : Type} : ∀ (l : List α) (i : Nat) (a d : α), i < l.length →
    (l.set i a).getD i d = a
  | _ :: _, 0, _, _, _ => rfl
  | _ :: l, i + 1, a, d, h => getD_set_self l i a d (by simpa using h)

theorem set_getD_self {α : Type} : ∀ (l : List α) (i : Nat) (d : α), i < l.length →
    l.set i (l.getD i d) = l
  | _ :: _, 0, _, _ => by simp [List.getD]
  | x :: l, i + 1, d, h => by
    show x :: l.set i ((x :: l).getD (i + 1) d) = x :: l
    have h2 : (x :: l).getD (i + 1) d = l.getD i d := by simp [List.getD]
    rw [h2, set_getD_self l i d (by simpa using h)]

theorem toggle_toggle (t : Task) : t.toggle_complete.toggle_complete = t := by
  cases t; simp [Task.toggle_complete]

theorem taskOfDict_to_dict (t : Task) (now : String) (h : t.created_date ≠ "") :
    taskOfDict t.to_dict now = t := by
  cases t with
  | mk n p c cd =>
    simp only [taskOfDict, Task.to_dict, Task.init]
    simp only at h
    simp [h]

/-! ### Claims -/

/-- C1: for any non-empty collection of tasks with valid fields (non-empty
name, non-empty created_date), saving with `save_tasks` and loading the
written records with `load_tasks` produces a collection field-wise equal to
the original. -/
theorem save_load_roundtrip (prior tasks : List Task) (now : String)
    (hne : tasks ≠ [])
    (hfields : ∀ t ∈ tasks, t.name ≠ "" ∧ t.created_date ≠ "") :
    (load_tasks prior (.records (save_tasks tasks)) now).1 = tasks := by
  simp only [load_tasks, save_tasks, List.map_map]
  have hcongr : ∀ t ∈ tasks, ((fun d => taskOfDict d now) ∘ Task.to_dict) t = id t := by
    intro t ht
    exact taskOfDict_to_dict t now (hfields t ht).2
  rw [List.map_congr_left hcongr, List.map_id]

/-- Witness for C1 at a concrete one-task collection. -/
theorem save_load_roundtrip_witness :
    (load_tasks [] (.records (save_tasks [⟨"Buy milk", "High", false, "2024-01-01 10:00:00"⟩]))
      "2024-06-01 09:00:00").1 = [⟨"Buy milk", "High", false, "2024-01-01 10:00:00"⟩] :=
  save_load_roundtrip [] [⟨"Buy milk", "High", false, "2024-01-01 10:00:00"⟩]
    "2024-06-01 09:00:00" (by decide) (by decide)

/-- C7: loading a file whose contents fail to parse leaves the freshly
initialised manager with an empty collection and a load-failure message; the
operation returns normally (it is a total function of the file state). -/
theorem load_parse_failure (now : String) :
    TaskManager.init .parseFailure now =
      ([], "Error loading tasks. Starting with empty list.") := rfl

/-- C10: a Task constructed with an empty (or absent) `created_date` gets the
current time instead; every freshly constructed Task has a non-empty
`created_date` (the strftime result `now` is never empty); consequently a
persisted record with an empty `created_date` is not reproduced field-wise by
load. -/
theorem created_date_defaulting (name priority : String) (completed : Bool)
    (now : String) (hnow : now ≠ "") (d : TaskDict) (hd : d.created_date = "") :
    (Task.init name priority completed (some "") now).created_date = now ∧
    (Task.init name priority completed none now).created_date = now ∧
    (∀ cd : Option String, (Task.init name priority completed cd now).created_date ≠ "") ∧
    (taskOfDict d now).created_date = now ∧
    (taskOfDict d now).created_date ≠ d.created_date ∧
    (load_tasks [] (.records [d]) now).1 ≠ [⟨d.name, d.priority, d.completed, d.created_date⟩] := by
  have hsome : ∀ (n p : String) (c : Bool) (s : String),
      (Task.init n p c (some s) now).created_date = if s = "" then now else s :=
    fun _ _ _ _ => rfl
  have hdict : (taskOfDict d now).created_date = now := by
    simp [taskOfDict, hsome, hd]
  refine ⟨by simp [Task.init], rfl, ?_, hdict, ?_, ?_⟩
  · intro cd
    cases cd with
    | none => exact hnow
    | some s =>
      rw [hsome name priority completed s]
      by_cases h : s = ""
      · simpa [h] using hnow
      · simpa [h] using h
  · rw [hdict, hd]
    exact hnow
  · simp only [load_tasks, List.map_cons, List.map_nil]
    intro hcontra
    have h1 : (taskOfDict d now).created_date = d.created_date := by
      rw [List.cons.injEq] at hcontra
      rw [hcontra.1]
    exact hnow (hdict.symm.trans (h1.trans hd))

/-- Witness for C10 at concrete inputs. -/
theorem created_date_defaulting_witness :
    (Task.init "t" "Low" false (some "") "2024-06-01 09:00:00").created_date
      = "2024-06-01 09:00:00" ∧
    (taskOfDict ⟨"t", "Low", false, ""⟩ "2024-06-01 09:00:00").created_date ≠ "" := by
  have h := created_date_defaulting "t" "Low" false "2024-06-01 09:00:00" (by decide)
    ⟨"t", "Low", false, ""⟩ rfl
  exact ⟨h.1, by rw [h.2.2.2.1]; decide⟩

/-- C3: with an in-range index, `delete_task` removes exactly the task at
that position (the result is the prefix before it followed by the suffix
after it, so all other tasks keep their relative order), the length drops by
one, and the name of the removed task is reported; with an out-of-range index the
collection is unchanged and the out-of-range message is reported. -/
theorem delete_task_spec (tasks : List Task) (i : Int) :
    (0 ≤ i → i < (tasks.length : Int) →
      delete_task tasks i =
        (tasks.take i.toNat ++ tasks.drop (i.toNat + 1),
         "Task " ++ (tasks.getD i.toNat default).name ++ " deleted.") ∧
      (delete_task tasks i).1.length = tasks.length - 1) ∧
    (¬(0 ≤ i ∧ i < (tasks.length : Int)) →
      delete_task tasks i = (tasks, "Error: Task number is out of range.")) := by
  constructor
  · intro h1 h2
    have hn : i.toNat < tasks.length := by omega
    have hcond : 0 ≤ i ∧ i < (tasks.length : Int) := ⟨h1, h2⟩
    constructor
    · simp only [delete_task, if_pos hcond]
      rw [List.eraseIdx_eq_take_drop_succ]
    · simp only [delete_task, if_pos hcond]
      simp [List.length_eraseIdx, hn]
  · intro hcond
    simp only [delete_task, if_neg hcond]

/-- Witness for C3: the in-range branch at index 1 of a two-task list, and
the out-of-range branch at index 5 of a one-task list. -/
theorem delete_task_spec_witness :
    delete_task [⟨"a", "Low", false, "d1"⟩, ⟨"b", "High", true, "d2"⟩] 1 =
      ([⟨"a", "Low", false, "d1"⟩], "Task b deleted.") ∧
    delete_task [⟨"a", "Low", false, "d1"⟩] 5 =
      ([⟨"a", "Low", false, "d1"⟩], "Error: Task number is out of range.") := by
  constructor
  · exact ((delete_task_spec [⟨"a", "Low", false, "d1"⟩, ⟨"b", "High", true, "d2"⟩] 1).1
      (by decide) (by decide)).1
  · exact (delete_task_spec [⟨"a", "Low", false, "d1"⟩] 5).2 (by decide)

/-- C4: toggling the same in-range index twice restores the entire
collection: the completed flag of the toggled task returns to its original value
and every other field and task is untouched. -/
theorem toggle_task_involution (tasks : List Task) (i : Int)
    (h1 : 0 ≤ i) (h2 : i < (tasks.length : Int)) :
    (toggle_task (toggle_task tasks i).1 i).1 = tasks := by
  have hn : i.toNat < tasks.length := by omega
  have hcond : 0 ≤ i ∧ i < (tasks.length : Int) := ⟨h1, h2⟩
  have hfst : (toggle_task tasks i).1 =
      tasks.set i.toNat (tasks.getD i.toNat default).toggle_complete := by
    simp only [toggle_task, if_pos hcond]
  rw [hfst]
  have hcond2 : 0 ≤ i ∧
      i < ((tasks.set i.toNat (tasks.getD i.toNat default).toggle_complete).length : Int) := by
    refine ⟨h1, ?_⟩
    rw [List.length_set]
    exact h2
  simp only [toggle_task, if_pos hcond2]
  rw [getD_set_self tasks i.toNat _ default hn, List.set_set,
    toggle_toggle, set_getD_self tasks i.toNat default hn]

/-- Witness for C4 at a concrete two-task list and index 0. -/
theorem toggle_task_involution_witness :
    (toggle_task (toggle_task [⟨"a", "Low", false, "d1"⟩, ⟨"b", "High", true, "d2"⟩] 0).1 0).1 =
      [⟨"a", "Low", false, "d1"⟩, ⟨"b", "High", true, "d2"⟩] :=
  toggle_task_involution [⟨"a", "Low", false, "d1"⟩, ⟨"b", "High", true, "d2"⟩] 0
    (by decide) (by decide)

/-- C5: `filter_tasks tasks "done"` is exactly the completed tasks,
`filter_tasks tasks "pending"` exactly the uncompleted ones, together they
are a permutation of the whole collection (every task lands in exactly one of
the two results), and membership in each result characterises the completed
flag. -/
theorem filter_done_pending_partition (tasks : List Task) :
    (filter_tasks tasks "done").1 = tasks.filter (fun t => t.completed) ∧
    (filter_tasks tasks "pending").1 = tasks.filter (fun t => !t.completed) ∧
    List.Perm ((filter_tasks tasks "done").1 ++ (filter_tasks tasks "pending").1) tasks ∧
    (∀ t ∈ tasks,
      (t ∈ (filter_tasks tasks "done").1 ↔ t.completed = true) ∧
      (t ∈ (filter_tasks tasks "pending").1 ↔ t.completed = false)) := by
  have hdone : (filter_tasks tasks "done").1 = tasks.filter (fun t => t.completed) := rfl
  have hpend : (filter_tasks tasks "pending").1 = tasks.filter (fun t => !t.completed) := rfl
  refine ⟨hdone, hpend, ?_, ?_⟩
  · rw [hdone, hpend]
    exact List.filter_append_perm (fun t => t.completed) tasks
  · intro t ht
    constructor
    · rw [hdone, List.mem_filter]
      simp [ht]
    · rw [hpend, List.mem_filter]
      simp [ht]

/-- C2: sorting a two-task collection [A(priority=Low), B(priority=High)] by
the `priority` key (reverse=false) swaps the tasks: priority is compared by
plain lexical string ordering of the label, under which "High" < "Low". -/
theorem sort_priority_lexical (a b : Task)
    (ha : a.priority = "Low") (hb : b.priority = "High") :
    sort_tasks [a, b] "priority" false =
      .ok ([b, a], "Tasks sorted by priority (Reverse: False).") := by
  have hk : keyLe "priority" a b = false := by
    have : keyLe "priority" a b = strLe a.priority b.priority := rfl
    rw [this, ha, hb]
    decide
  have step : sort_tasks [a, b] "priority" false =
      .ok (if keyLe "priority" a b then [a, b] else [b, a],
           "Tasks sorted by priority (Reverse: False).") := rfl
  rw [step, hk]
  simp

/-- Witness for C2 at concrete tasks. -/
theorem sort_priority_lexical_witness :
    sort_tasks [⟨"A", "Low", false, "2024-01-01 10:00:00"⟩,
                ⟨"B", "High", false, "2024-01-02 10:00:00"⟩] "priority" false =
      .ok ([⟨"B", "High", false, "2024-01-02 10:00:00"⟩,
            ⟨"A", "Low", false, "2024-01-01 10:00:00"⟩],
        "Tasks sorted by priority (Reverse: False).") :=
  sort_priority_lexical ⟨"A", "Low", false, "2024-01-01 10:00:00"⟩
    ⟨"B", "High", false, "2024-01-02 10:00:00"⟩ rfl rfl

/-- Counterexample to C6 as stated: on the EMPTY collection, `list.sort`
never applies `attrgetter(key)` to an element, so no `AttributeError` is
raised for the nonexistent key "foo" and the success message is printed, not
the invalid-key message. -/
theorem sort_invalid_key_counterexample :
    sort_tasks [] "foo" true = .ok ([], "Tasks sorted by foo (Reverse: True).") ∧
    "Tasks sorted by foo (Reverse: True)." ≠
      "Invalid sorting key: foo. Defaulting to creation date." :=
  ⟨rfl, by decide⟩

/-- C6 (amended: for every NON-EMPTY collection): sorting with a key string
that is not an attribute of Task reports the invalid-key message and sorts by
`created_date` ascending, regardless of the reverse flag; no task is lost or
gained (the result is a permutation of the input). -/
theorem sort_invalid_key_fallback (tasks : List Task) (key : String) (reverse : Bool)
    (hne : tasks ≠ [])
    (hd : key ∉ taskDataAttrs) (hm : key ∉ taskMethodAttrs) :
    sort_tasks tasks key reverse =
      .ok (insertionSort (keyLe "created_date") tasks,
        "Invalid sorting key: " ++ key ++ ". Defaulting to creation date.") ∧
    List.Perm (insertionSort (keyLe "created_date") tasks) tasks ∧
    (insertionSort (keyLe "created_date") tasks).Pairwise
      (fun a b => strLe a.created_date b.created_date = true) := by
  refine ⟨?_, insertionSort_perm _ tasks, ?_⟩
  · have hemp : tasks.isEmpty = false := by
      cases tasks with
      | nil => exact absurd rfl hne
      | cons a l => rfl
    simp only [sort_tasks, if_neg hd, if_neg hm, hemp]
    simp
  · have htot : ∀ a b : Task,
        keyLe "created_date" a b = true ∨ keyLe "created_date" b a = true :=
      fun a b => strLe_total a.created_date b.created_date
    have htrans : ∀ a b c : Task, keyLe "created_date" a b = true →
        keyLe "created_date" b c = true → keyLe "created_date" a c = true :=
      fun _ _ _ h1 h2 => strLe_trans h1 h2
    exact insertionSort_pairwise _ htot htrans tasks

/-- Witness for C6 at a concrete two-task collection and key "foo". -/
theorem sort_invalid_key_fallback_witness :
    sort_tasks [⟨"b", "High", true, "2024-01-02 10:00:00"⟩,
                ⟨"a", "Low", false, "2024-01-01 10:00:00"⟩] "foo" true =
      .ok ([⟨"a", "Low", false, "2024-01-01 10:00:00"⟩,
            ⟨"b", "High", true, "2024-01-02 10:00:00"⟩],
        "Invalid sorting key: foo. Defaulting to creation date.") := by
  have h := sort_invalid_key_fallback
    [⟨"b", "High", true, "2024-01-02 10:00:00"⟩,
     ⟨"a", "Low", false, "2024-01-01 10:00:00"⟩] "foo" true
    (by decide) (by decide) (by decide)
  rw [h.1]
  rfl

/-- C9 (implicit): whenever `sort_tasks` returns a collection (any key,
valid or not, and any reverse flag), that collection is a permutation of the
collection before the call: no task is added, removed or modified. -/
theorem sort_perm_invariant (tasks : List Task) (key : String) (reverse : Bool)
    (out : List Task × String) (h : sort_tasks tasks key reverse = .ok out) :
    List.Perm out.1 tasks := by
  simp only [sort_tasks] at h
  split at h
  · obtain rfl := Except.ok.inj h
    exact pySort_perm _ _ _
  · split at h
    · split at h
      · obtain rfl := Except.ok.inj h
        exact List.Perm.refl _
      · simp at h
    · split at h
      · obtain rfl := Except.ok.inj h
        exact List.Perm.refl _
      · obtain rfl := Except.ok.inj h
        exact insertionSort_perm _ _

/-- Witness for C9: a concrete sort whose output is checked to be a
permutation of its input. -/
theorem sort_perm_invariant_witness :
    List.Perm [(⟨"y", "Medium", false, "2024-02-02 10:00:00"⟩ : Task),
               ⟨"x", "Low", true, "2024-02-01 10:00:00"⟩]
      [⟨"x", "Low", true, "2024-02-01 10:00:00"⟩,
       ⟨"y", "Medium", false, "2024-02-02 10:00:00"⟩] :=
  sort_perm_invariant
    [⟨"x", "Low", true, "2024-02-01 10:00:00"⟩,
     ⟨"y", "Medium", false, "2024-02-02 10:00:00"⟩] "name" true
    ([⟨"y", "Medium", false, "2024-02-02 10:00:00"⟩,
      ⟨"x", "Low", true, "2024-02-01 10:00:00"⟩],
     "Tasks sorted by name (Reverse: True).") rfl

/-- C8: adding "Buy milk" with priority "High" to an empty store appends one
task, and displaying then yields exactly one numbered line, which contains
the pending marker "[ ]", the width-6 padded priority label "(P: High  )",
and the task name "Buy milk". -/
theorem add_display_scenario (now : String) :
    (add_task [] "Buy milk" "High" now).1 =
      [Task.init "Buy milk" "High" false none now] ∧
    display_tasks (add_task [] "Buy milk" "High" now).1 =
      ["1. [ ] (P: High  ) Buy milk (Created: " ++ now.take 10 ++ ")"] ∧
    (∃ u v, "1. [ ] (P: High  ) Buy milk (Created: " ++ now.take 10 ++ ")"
      = u ++ "[ ]" ++ v) ∧
    (∃ u v, "1. [ ] (P: High  ) Buy milk (Created: " ++ now.take 10 ++ ")"
      = u ++ "(P: High  )" ++ v) ∧
    (∃ u v, "1. [ ] (P: High  ) Buy milk (Created: " ++ now.take 10 ++ ")"
      = u ++ "Buy milk" ++ v) := by
  refine ⟨rfl, ?_, ?_, ?_, ?_⟩
  · have h1 : display_tasks (add_task [] "Buy milk" "High" now).1 =
        [toString ((0 : Nat) + 1) ++ ". " ++
          Task.render (Task.init "Buy milk" "High" false none now)] := rfl
    have h2 : ∀ x : String, toString ((0 : Nat) + 1) ++ ". " ++ x = "1. " ++ x :=
      fun _ => rfl
    have h3 : Task.render (Task.init "Buy milk" "High" false none now) =
        ("[ ] (P: High  ) Buy milk (Created: " ++ now.take 10) ++ ")" := rfl
    rw [h1, h2, h3]
    simp only [← String.append_assoc]
    rfl
  · refine ⟨"1. ", " (P: High  ) Buy milk (Created: " ++ now.take 10 ++ ")", ?_⟩
    simp only [← String.append_assoc]
    rfl
  · refine ⟨"1. [ ] ", " Buy milk (Created: " ++ now.take 10 ++ ")", ?_⟩
    simp only [← String.append_assoc]
    rfl
  · refine ⟨"1. [ ] (P: High  ) ", " (Created: " ++ now.take 10 ++ ")", ?_⟩
    simp only [← String.append_assoc]
    rfl

end ToDoList
